import Mathlib

/-!
Shallow embedding of the batch TTS driver `generate_tts_azure_db.py`
(repository hablai-tts) and proofs about it.

The embedding covers the resumable batch-processing loop of `main`:
the `phrases` table, the paged eligibility query, the per-record
reconciliation / dry-run / synthesis handling, the per-record commit
discipline of the psycopg2 connection (`autocommit = False`), the run
counters, and the final summary lines.  External effects are made
explicit state: the database is split into the durable (committed)
contents and the connection's transaction view (`pending`), the
filesystem is a finite map from phrase id to artifact size plus a flag
for the output directory, and the Azure provider is an oracle indexed
by the number of synthesis calls made so far.
-/

namespace HablaiTTS

/-- A row of the `phrases` table.  `tts_attempts` is modelled as a plain
`Nat`: the driver reads it through `row["tts_attempts"] or 0`, so a SQL
NULL behaves as 0 and a non-null model loses nothing (NULL rows are in
any case excluded by the `tts_attempts < %s` comparison of the queries). -/
structure Row where
  id : Nat
  phrase : String
  tts_ok : Bool
  tts_attempts : Nat
  tts_error : Option String
deriving DecidableEq, Repr

/-- The subset of `speechsdk.ResultReason` the driver inspects. -/
inductive ResultReason where
  | synthesizingAudioCompleted
  | canceled
  | other (s : String)
deriving DecidableEq, Repr

/-- How Python renders the reason inside the f-string `f"reason={result.reason}"`. -/
def reasonStr : ResultReason → String
  | ResultReason.synthesizingAudioCompleted => "ResultReason.SynthesizingAudioCompleted"
  | ResultReason.canceled => "ResultReason.Canceled"
  | ResultReason.other s => s

/-- `result.cancellation_details` of the speech SDK. -/
structure CancellationDetails where
  reason : String
  errorDetails : Option String
deriving DecidableEq, Repr

/-- One provider response: the result reason, the cancellation details
(read only when the reason is `canceled`), and the number of audio bytes
the SDK wrote into the output file on success. -/
structure SpeechResult where
  reason : ResultReason
  cancellationDetails : CancellationDetails
  audioBytes : Nat
deriving DecidableEq, Repr

/-- The error string built by `synthesize_to_file` when the result is
not `SynthesizingAudioCompleted` (lines 90–95 of the source). -/
def failMessage (result : SpeechResult) : String :=
  let err := "TTS failed, reason=" ++ reasonStr result.reason
  if result.reason = ResultReason.canceled then
    let cancellation := result.cancellationDetails
    let err := err ++ ", cancel_reason=" ++ cancellation.reason
    match cancellation.errorDetails with
    | some d => err ++ ", details=" ++ d
    | none => err
  else err

/-- `synthesize_to_file`: returns `(успех, текст_ошибки_или_None)`.
The file write itself is performed by the caller's state update. -/
def synthesize_to_file (result : SpeechResult) : Bool × Option String :=
  if result.reason = ResultReason.synthesizingAudioCompleted then
    (true, none)
  else
    (false, some (failMessage result))

/-- The artifact directory: pairs `(phrase id, file size in bytes)`;
absence of a pair means the `{phrase_id:06d}.mp3` file does not exist. -/
def artifactSize (a : List (Nat × Nat)) (i : Nat) : Option Nat :=
  (a.find? (fun p => p.1 == i)).map (fun p => p.2)

/-- `out_file.exists() and out_file.stat().st_size > 0`. -/
def artifactNonEmpty (a : List (Nat × Nat)) (i : Nat) : Bool :=
  match artifactSize a i with
  | some n => decide (0 < n)
  | none => false

/-- Writing (or overwriting) the artifact for phrase `i`. -/
def setArtifact (a : List (Nat × Nat)) (i sz : Nat) : List (Nat × Nat) :=
  (i, sz) :: a.filter (fun p => !(p.1 == i))

/-- The `WHERE tts_ok = false AND tts_attempts < %s` condition of both
the count and the paged select. -/
def eligible (maxAttempts : Nat) (r : Row) : Bool :=
  !r.tts_ok && decide (r.tts_attempts < maxAttempts)

/-- Insertion step for `ORDER BY id`. -/
def insertById (r : Row) : List Row → List Row
  | [] => [r]
  | x :: xs => if r.id ≤ x.id then r :: x :: xs else x :: insertById r xs

/-- `ORDER BY id` (insertion sort; stable, and only membership matters
for the proofs below). -/
def sortById : List Row → List Row
  | [] => []
  | x :: xs => insertById x (sortById xs)

/-- The paged select:
`SELECT id, phrase, tts_attempts FROM phrases WHERE tts_ok = false AND
tts_attempts < %s ORDER BY id LIMIT %s`, evaluated against the
connection's current transaction view. -/
def fetchPage (maxAttempts batchSize : Nat) (db : List Row) : List Row :=
  (sortById (db.filter (eligible maxAttempts))).take batchSize

/-- `SELECT COUNT(*) FROM phrases WHERE tts_ok = false AND tts_attempts < %s`. -/
def countPending (maxAttempts : Nat) (db : List Row) : Nat :=
  (db.filter (eligible maxAttempts)).length

/-- `UPDATE phrases SET ... WHERE id = %s` applied to a table. -/
def updateRow (db : List Row) (i : Nat) (f : Row → Row) : List Row :=
  db.map (fun r => if r.id = i then f r else r)

/-- The command-line arguments the loop depends on.  `out_dir`,
`language`, `voice` and `sleep_on_error` only affect I/O targets and
timing and carry no state the claims mention. -/
structure Args where
  batch_size : Nat
  max_phrases : Nat
  max_attempts : Nat
  dry_run : Bool
deriving DecidableEq, Repr

/-- The run state: the committed table (`durable`), the connection's
transaction view (`pending`, equal to `durable` except for updates
executed since the last commit), the artifact directory, whether the
output directory exists, the four run counters, and how many provider
calls have been made. -/
structure RunState where
  durable : List Row
  pending : List Row
  artifacts : List (Nat × Nat)
  outDirExists : Bool
  processed : Nat
  done : Nat
  skipped : Nat
  failed : Nat
  synthCalls : Nat
deriving DecidableEq, Repr

/-- The body of `for row in rows:` for one row (after the
`processed >= total_target` break check).  Three paths:
reconciliation of an existing non-empty artifact (UPDATE executed on
the transaction, *no commit*), dry-run preview, or a synthesis attempt
followed by an UPDATE and `conn.commit()`. -/
def handleRow (oracle : Nat → SpeechResult) (args : Args) (row : Row) (s : RunState) : RunState :=
  let attempts := row.tts_attempts
  if artifactNonEmpty s.artifacts row.id && !args.dry_run then
    { s with
      pending := updateRow s.pending row.id
        (fun r => { r with tts_ok := true, tts_error := none }),
      skipped := s.skipped + 1,
      processed := s.processed + 1 }
  else if args.dry_run then
    { s with processed := s.processed + 1, skipped := s.skipped + 1 }
  else
    let result := oracle s.synthCalls
    let res := synthesize_to_file result
    let ok := res.1
    let err := res.2
    let attempts := attempts + 1
    let pending :=
      if ok then
        updateRow s.pending row.id
          (fun r => { r with tts_ok := true, tts_attempts := attempts, tts_error := none })
      else
        updateRow s.pending row.id
          (fun r => { r with tts_ok := false, tts_attempts := attempts, tts_error := err })
    { s with
      pending := pending,
      durable := pending,
      artifacts := setArtifact s.artifacts row.id (if ok then result.audioBytes else 0),
      done := if ok then s.done + 1 else s.done,
      failed := if ok then s.failed else s.failed + 1,
      processed := s.processed + 1,
      synthCalls := s.synthCalls + 1 }

/-- `for row in rows:` — handle the fetched page in order, breaking out
as soon as `processed >= total_target`. -/
def processRows (oracle : Nat → SpeechResult) (args : Args) (totalTarget : Nat) :
    List Row → RunState → RunState
  | [], s => s
  | row :: rest, s =>
    if totalTarget ≤ s.processed then s
    else processRows oracle args totalTarget rest (handleRow oracle args row s)

/-- `while processed < total_target:` — fetch a page from the
transaction view, stop on an empty page, otherwise handle it and loop.
`fuel` bounds the number of page fetches; every non-empty page handles
at least one row (the guard held when it was fetched), so
`total_target + 1` fetches reach the loop's exit. -/
def runPages (oracle : Nat → SpeechResult) (args : Args) (totalTarget : Nat) :
    Nat → RunState → RunState
  | 0, s => s
  | fuel + 1, s =>
    if s.processed < totalTarget then
      if (fetchPage args.max_attempts args.batch_size s.pending).isEmpty then s
      else
        runPages oracle args totalTarget fuel
          (processRows oracle args totalTarget
            (fetchPage args.max_attempts args.batch_size s.pending) s)
    else s

/-- `total_target` as computed from `total_pending` (lines 178–181). -/
def totalTargetOf (args : Args) (db : List Row) : Nat :=
  let total_pending := countPending args.max_attempts db
  if 0 < args.max_phrases ∧ args.max_phrases < total_pending then args.max_phrases
  else total_pending

/-- What `main` leaves behind: the final state (after `conn.close()`,
which discards any update executed but not committed) and the summary
lines printed at the end, `none` when the early `return` was taken. -/
structure RunResult where
  state : RunState
  summary : Option (List (String × Nat))
deriving DecidableEq, Repr

/-- The state of a fresh run over table `db` with artifact directory
`a`: the connection just opened (transaction view = committed view),
counters zeroed, no provider call yet, and the output directory present
because `out_dir.mkdir(parents=True, exist_ok=True)` has already run —
whatever the directory's state was before the run started. -/
def initState (db : List Row) (a : List (Nat × Nat)) : RunState :=
  { durable := db, pending := db, artifacts := a, outDirExists := true,
    processed := 0, done := 0, skipped := 0, failed := 0, synthCalls := 0 }

/-- `main`, from `out_dir.mkdir(...)` on: create the output directory,
count pending work, compute the target, return early when it is zero,
otherwise run the page loop, close the connection (rolling back any
uncommitted update) and print the summary.  `outDirExists0`, the state
of the output directory before the run, is overridden by the `mkdir`. -/
def runMain (oracle : Nat → SpeechResult) (args : Args) (db : List Row)
    (artifacts0 : List (Nat × Nat)) (outDirExists0 : Bool) : RunResult :=
  let total_target := totalTargetOf args db
  if total_target = 0 then
    { state := initState db artifacts0, summary := none }
  else
    let sF := runPages oracle args total_target (total_target + 1) (initState db artifacts0)
    { state := { sF with pending := sF.durable },
      summary := some
        [("Target this run", total_target), ("Done (OK)", sF.done),
         ("Skipped", sF.skipped), ("Failed", sF.failed)] }

/-- The counter equation the loop maintains: every handled record bumps
`processed` and exactly one of `done`/`skipped`/`failed`. -/
abbrev counterEq (s : RunState) : Prop :=
  s.processed = s.done + s.skipped + s.failed

/-- Record `i` stands advanced to success in state `s`: every row of the
transaction view carrying id `i` is marked `tts_ok = true`. -/
abbrev okAt (s : RunState) (i : Nat) : Prop :=
  ∀ r ∈ s.pending, r.id = i → r.tts_ok = true

/-! ### Concrete fixtures used by counterexamples and witnesses -/

/-- A provider that cancels every request. -/
def orcFail : Nat → SpeechResult := fun _ =>
  { reason := ResultReason.canceled,
    cancellationDetails := { reason := "CancellationReason.Error", errorDetails := some "boom" },
    audioBytes := 0 }

/-- A provider that succeeds on every request. -/
def orcOk : Nat → SpeechResult := fun _ =>
  { reason := ResultReason.synthesizingAudioCompleted,
    cancellationDetails := { reason := "", errorDetails := none },
    audioBytes := 42 }

def rowA : Row := { id := 1, phrase := "hola", tts_ok := false, tts_attempts := 0, tts_error := none }

def rowB : Row := { id := 2, phrase := "adios", tts_ok := false, tts_attempts := 0, tts_error := none }

/-- A row whose synthesis already succeeded on an earlier run. -/
def rowDone : Row := { id := 7, phrase := "listo", tts_ok := true, tts_attempts := 1, tts_error := none }

def argsOnePerPage : Args := { batch_size := 1, max_phrases := 0, max_attempts := 5, dry_run := false }

def argsDefault : Args := { batch_size := 100, max_phrases := 0, max_attempts := 5, dry_run := false }

def argsDry : Args := { batch_size := 100, max_phrases := 0, max_attempts := 5, dry_run := true }

/-! ### Membership lemmas for the paged query -/

theorem mem_insertById {r x : Row} : ∀ {l : List Row}, r ∈ insertById x l ↔ r = x ∨ r ∈ l
  | [] => by simp [insertById]
  | y :: ys => by
    rw [insertById]
    split
    · simp
    · rw [List.mem_cons, mem_insertById (l := ys), List.mem_cons]
      tauto

theorem mem_sortById {r : Row} : ∀ {l : List Row}, r ∈ sortById l ↔ r ∈ l
  | [] => Iff.rfl
  | x :: xs => by
    rw [sortById, mem_insertById, mem_sortById (l := xs), List.mem_cons]

/-- Everything the paged select returns is in the table and satisfies the
`WHERE` clause. -/
theorem mem_fetchPage {ma bs : Nat} {db : List Row} {r : Row}
    (h : r ∈ fetchPage ma bs db) : r ∈ db ∧ eligible ma r = true := by
  have h1 : r ∈ sortById (db.filter (eligible ma)) := List.mem_of_mem_take h
  rw [mem_sortById] at h1
  exact ⟨(List.mem_filter.mp h1).1, (List.mem_filter.mp h1).2⟩

/-- Case analysis for membership in an `UPDATE ... WHERE id = i` result. -/
theorem mem_updateRow {db : List Row} {i : Nat} {f : Row → Row} {r : Row}
    (h : r ∈ updateRow db i f) :
    (∃ r0, r0 ∈ db ∧ r0.id = i ∧ r = f r0) ∨ (r ∈ db ∧ r.id ≠ i) := by
  rw [updateRow] at h
  obtain ⟨r0, hr0, heq⟩ := List.mem_map.mp h
  by_cases hc : r0.id = i
  · rw [if_pos hc] at heq
    exact Or.inl ⟨r0, hr0, hc, heq.symm⟩
  · rw [if_neg hc] at heq
    exact Or.inr ⟨heq ▸ hr0, heq ▸ hc⟩

/-! ### Reduction lemmas for the three per-record paths -/

/-- Reconciliation path (lines 229–238): existing non-empty artifact,
not in dry-run.  The `UPDATE` is executed on the transaction view only;
nothing is committed. -/
theorem handleRow_reconcile (oracle : Nat → SpeechResult) (args : Args) (row : Row)
    (s : RunState) (hart : artifactNonEmpty s.artifacts row.id = true)
    (hdry : args.dry_run = false) :
    handleRow oracle args row s =
      { s with
        pending := updateRow s.pending row.id
          (fun r => { r with tts_ok := true, tts_error := none }),
        skipped := s.skipped + 1,
        processed := s.processed + 1 } := by
  rw [handleRow]
  simp [hart, hdry]

/-- Dry-run path (lines 240–246): count only. -/
theorem handleRow_dry (oracle : Nat → SpeechResult) (args : Args) (row : Row)
    (s : RunState) (hdry : args.dry_run = true) :
    handleRow oracle args row s =
      { s with processed := s.processed + 1, skipped := s.skipped + 1 } := by
  rw [handleRow]
  simp [hdry]

/-- Successful synthesis (lines 248–263, 277–279): UPDATE to success and
commit. -/
theorem handleRow_synth_ok (oracle : Nat → SpeechResult) (args : Args) (row : Row)
    (s : RunState) (hart : artifactNonEmpty s.artifacts row.id = false)
    (hdry : args.dry_run = false)
    (hok : (oracle s.synthCalls).reason = ResultReason.synthesizingAudioCompleted) :
    handleRow oracle args row s =
      { s with
        pending := updateRow s.pending row.id
          (fun r => { r with tts_ok := true, tts_attempts := row.tts_attempts + 1,
                             tts_error := none }),
        durable := updateRow s.pending row.id
          (fun r => { r with tts_ok := true, tts_attempts := row.tts_attempts + 1,
                             tts_error := none }),
        artifacts := setArtifact s.artifacts row.id (oracle s.synthCalls).audioBytes,
        done := s.done + 1,
        processed := s.processed + 1,
        synthCalls := s.synthCalls + 1 } := by
  rw [handleRow]
  simp [hart, hdry, synthesize_to_file, hok]

/-- Failed synthesis (lines 248–282): UPDATE to failure and commit. -/
theorem handleRow_synth_fail (oracle : Nat → SpeechResult) (args : Args) (row : Row)
    (s : RunState) (hart : artifactNonEmpty s.artifacts row.id = false)
    (hdry : args.dry_run = false)
    (hfail : (oracle s.synthCalls).reason ≠ ResultReason.synthesizingAudioCompleted) :
    handleRow oracle args row s =
      { s with
        pending := updateRow s.pending row.id
          (fun r => { r with tts_ok := false, tts_attempts := row.tts_attempts + 1,
                             tts_error := some (failMessage (oracle s.synthCalls)) }),
        durable := updateRow s.pending row.id
          (fun r => { r with tts_ok := false, tts_attempts := row.tts_attempts + 1,
                             tts_error := some (failMessage (oracle s.synthCalls)) }),
        artifacts := setArtifact s.artifacts row.id 0,
        failed := s.failed + 1,
        processed := s.processed + 1,
        synthCalls := s.synthCalls + 1 } := by
  rw [handleRow]
  simp [hart, hdry, synthesize_to_file, hfail]

/-- Every path of the per-record handling advances `processed` by one. -/
theorem handleRow_processed (oracle : Nat → SpeechResult) (args : Args) (row : Row)
    (s : RunState) : (handleRow oracle args row s).processed = s.processed + 1 := by
  rw [handleRow]
  split
  · rfl
  · split
    · rfl
    · rfl

/-- Every path of the per-record handling advances exactly one of
`done`/`skipped`/`failed` by one. -/
theorem handleRow_sum (oracle : Nat → SpeechResult) (args : Args) (row : Row)
    (s : RunState) :
    (handleRow oracle args row s).done + (handleRow oracle args row s).skipped +
        (handleRow oracle args row s).failed = s.done + s.skipped + s.failed + 1 := by
  rw [handleRow]
  split
  · simp only []
    omega
  · split
    · simp only []
      omega
    · by_cases hok : (synthesize_to_file (oracle s.synthCalls)).1 = true
      · simp only [hok]
        simp
        omega
      · simp only [Bool.not_eq_true] at hok
        simp only [hok]
        simp
        omega

/-! ### Loop invariants -/

/-- A property preserved by every per-record step is preserved by the
page loop body. -/
theorem processRows_inv (oracle : Nat → SpeechResult) (args : Args) (tt : Nat)
    (P : RunState → Prop)
    (hstep : ∀ row s, P s → P (handleRow oracle args row s)) :
    ∀ rows s, P s → P (processRows oracle args tt rows s)
  | [], _, h => h
  | row :: rest, s, h => by
    rw [processRows]
    split
    · exact h
    · exact processRows_inv oracle args tt P hstep rest _ (hstep row s h)

/-- A property preserved by every per-record step is preserved by the
whole while-loop. -/
theorem runPages_inv (oracle : Nat → SpeechResult) (args : Args) (tt : Nat)
    (P : RunState → Prop)
    (hstep : ∀ row s, P s → P (handleRow oracle args row s)) :
    ∀ fuel s, P s → P (runPages oracle args tt fuel s)
  | 0, _, h => h
  | fuel + 1, s, h => by
    rw [runPages]
    split
    · split
      · exact h
      · exact runPages_inv oracle args tt P hstep fuel _
          (processRows_inv oracle args tt P hstep _ s h)
    · exact h

/-- The page loop body never pushes `processed` past the target. -/
theorem processRows_le (oracle : Nat → SpeechResult) (args : Args) (tt : Nat) :
    ∀ rows s, s.processed ≤ tt → (processRows oracle args tt rows s).processed ≤ tt
  | [], _, h => h
  | row :: rest, s, h => by
    rw [processRows]
    split
    · exact h
    · next hlt =>
      refine processRows_le oracle args tt rest _ ?_
      rw [handleRow_processed]
      omega

/-- The while-loop never pushes `processed` past the target. -/
theorem runPages_le (oracle : Nat → SpeechResult) (args : Args) (tt : Nat) :
    ∀ fuel s, s.processed ≤ tt → (runPages oracle args tt fuel s).processed ≤ tt
  | 0, _, h => h
  | fuel + 1, s, h => by
    rw [runPages]
    split
    · split
      · exact h
      · exact runPages_le oracle args tt fuel _ (processRows_le oracle args tt _ s h)
    · exact h

/-! ### Shape of the failure message -/

/-- The failure message always starts with the fixed header followed by
the rendered provider reason. -/
theorem failMessage_data (res : SpeechResult) :
    ∃ t, (failMessage res).data =
      "TTS failed, reason=".data ++ (reasonStr res.reason).data ++ t := by
  simp only [failMessage]
  split
  · cases hed : res.cancellationDetails.errorDetails with
    | some d =>
      refine ⟨", cancel_reason=".data ++ res.cancellationDetails.reason.data ++
        (", details=".data ++ d.data), ?_⟩
      simp [String.data_append, List.append_assoc]
    | none =>
      refine ⟨", cancel_reason=".data ++ res.cancellationDetails.reason.data, ?_⟩
      simp [String.data_append, List.append_assoc]
  · exact ⟨[], by simp [String.data_append]⟩

/-- The failure message is never the empty string. -/
theorem failMessage_ne_empty (res : SpeechResult) : failMessage res ≠ "" := by
  obtain ⟨t, ht⟩ := failMessage_data res
  intro h
  rw [h] at ht
  have hne : "TTS failed, reason=".data ++ (reasonStr res.reason).data ++ t ≠ [] :=
    List.append_ne_nil_of_left_ne_nil
      (List.append_ne_nil_of_left_ne_nil (by decide) _) t
  exact hne ht.symm

/-- The rendered provider reason occurs inside the failure message. -/
theorem reasonStr_infix_failMessage (res : SpeechResult) :
    (reasonStr res.reason).data <:+: (failMessage res).data := by
  obtain ⟨t, ht⟩ := failMessage_data res
  exact ⟨"TTS failed, reason=".data, t, ht.symm⟩

/-- On a cancellation, the cancellation sub-reason occurs inside the
failure message. -/
theorem cancelReason_infix_failMessage (res : SpeechResult)
    (hc : res.reason = ResultReason.canceled) :
    res.cancellationDetails.reason.data <:+: (failMessage res).data := by
  simp only [failMessage]
  rw [if_pos hc]
  cases hed : res.cancellationDetails.errorDetails with
  | some d =>
    refine ⟨("TTS failed, reason=" ++ reasonStr res.reason ++ ", cancel_reason=").data,
      ", details=".data ++ d.data, ?_⟩
    simp [String.data_append, List.append_assoc]
  | none =>
    refine ⟨("TTS failed, reason=" ++ reasonStr res.reason ++ ", cancel_reason=").data,
      [], ?_⟩
    simp [String.data_append, List.append_assoc]

/-! ### The claims -/

/-- C6: at the start of every run `total_pending` is the number of rows
with `tts_ok = false` and `tts_attempts < max_attempts`, and
`total_target` is `min max_phrases total_pending` when a positive
`max_phrases` cap is given and `total_pending` otherwise. -/
theorem c6_pending_and_target (args : Args) (db : List Row) :
    countPending args.max_attempts db =
      db.countP (fun r => !r.tts_ok && decide (r.tts_attempts < args.max_attempts)) ∧
    totalTargetOf args db =
      (if 0 < args.max_phrases then
        min args.max_phrases (countPending args.max_attempts db)
      else countPending args.max_attempts db) := by
  constructor
  · rw [countPending, List.countP_eq_length_filter]
    rfl
  · simp only [totalTargetOf]
    split_ifs <;> omega

/-- C8: the eligible-record selection never returns a row with
`tts_ok = true` nor one with `tts_attempts ≥ max_attempts`: a record
already marked successful, or one that exhausted its attempts without
success, is excluded from every page this driver fetches. -/
theorem c8_selection_excludes (ma bs : Nat) (db : List Row) (r : Row)
    (h : r ∈ fetchPage ma bs db) : r.tts_ok = false ∧ r.tts_attempts < ma := by
  have h2 := (mem_fetchPage h).2
  rw [eligible, Bool.and_eq_true, Bool.not_eq_true'] at h2
  exact ⟨h2.1, of_decide_eq_true h2.2⟩

theorem c8_selection_excludes_witness :
    rowA.tts_ok = false ∧ rowA.tts_attempts < 5 :=
  c8_selection_excludes 5 1 [rowA] rowA (by decide)

/-- C10: each handled record preserves
`processed = done + skipped + failed`, the equation holds in the final
state of every run, and `processed` never exceeds `total_target`. -/
theorem c10_counters (oracle : Nat → SpeechResult) (args : Args) (row : Row) (s : RunState)
    (db : List Row) (arts : List (Nat × Nat)) (od : Bool) :
    (counterEq s → counterEq (handleRow oracle args row s)) ∧
    counterEq (runMain oracle args db arts od).state ∧
    (runMain oracle args db arts od).state.processed ≤ totalTargetOf args db := by
  have hstep : ∀ (r : Row) (t : RunState), counterEq t → counterEq (handleRow oracle args r t) := by
    intro r t h
    simp only [counterEq] at h ⊢
    rw [handleRow_processed]
    have := handleRow_sum oracle args r t
    omega
  refine ⟨hstep row s, ?_⟩
  simp only [runMain]
  by_cases h0 : totalTargetOf args db = 0
  · rw [if_pos h0]
    exact ⟨rfl, Nat.zero_le _⟩
  · rw [if_neg h0]
    constructor
    · have := runPages_inv oracle args (totalTargetOf args db) counterEq hstep
        (totalTargetOf args db + 1) (initState db arts) rfl
      simpa [counterEq] using this
    · have := runPages_le oracle args (totalTargetOf args db)
        (totalTargetOf args db + 1) (initState db arts) (Nat.zero_le _)
      simpa using this

theorem c10_counters_witness :
    counterEq (handleRow orcFail argsDefault rowA (initState [rowA] [])) ∧
    counterEq (runMain orcFail argsDefault [rowA] [] true).state ∧
    (runMain orcFail argsDefault [rowA] [] true).state.processed ≤
      totalTargetOf argsDefault [rowA] := by
  have h := c10_counters orcFail argsDefault rowA (initState [rowA] []) [rowA] [] true
  exact ⟨h.1 (by decide), h.2.1, h.2.2⟩

/-- C5: with the dry-run flag set, no database row is written or
updated (both the committed table and the transaction view are left
untouched), no artifact is created, and the provider is never invoked;
`done` and `failed` stay zero and every handled record is counted as
both processed and skipped, so `skipped = processed` throughout. -/
theorem c5_dry_run (oracle : Nat → SpeechResult) (args : Args) (db : List Row)
    (arts : List (Nat × Nat)) (od : Bool) (hdry : args.dry_run = true) :
    (runMain oracle args db arts od).state.durable = db ∧
    (runMain oracle args db arts od).state.pending = db ∧
    (runMain oracle args db arts od).state.artifacts = arts ∧
    (runMain oracle args db arts od).state.synthCalls = 0 ∧
    (runMain oracle args db arts od).state.done = 0 ∧
    (runMain oracle args db arts od).state.failed = 0 ∧
    (runMain oracle args db arts od).state.skipped =
      (runMain oracle args db arts od).state.processed := by
  have hstep : ∀ (r : Row) (t : RunState),
      (t.durable = db ∧ t.pending = db ∧ t.artifacts = arts ∧ t.synthCalls = 0 ∧
        t.done = 0 ∧ t.failed = 0 ∧ t.skipped = t.processed) →
      ((handleRow oracle args r t).durable = db ∧
        (handleRow oracle args r t).pending = db ∧
        (handleRow oracle args r t).artifacts = arts ∧
        (handleRow oracle args r t).synthCalls = 0 ∧
        (handleRow oracle args r t).done = 0 ∧
        (handleRow oracle args r t).failed = 0 ∧
        (handleRow oracle args r t).skipped = (handleRow oracle args r t).processed) := by
    intro r t h
    rw [handleRow_dry oracle args r t hdry]
    exact ⟨h.1, h.2.1, h.2.2.1, h.2.2.2.1, h.2.2.2.2.1, h.2.2.2.2.2.1, by
      have := h.2.2.2.2.2.2
      simp only []
      omega⟩
  simp only [runMain]
  by_cases h0 : totalTargetOf args db = 0
  · rw [if_pos h0]
    exact ⟨rfl, rfl, rfl, rfl, rfl, rfl, rfl⟩
  · rw [if_neg h0]
    have hinv := runPages_inv oracle args (totalTargetOf args db)
      (fun t => t.durable = db ∧ t.pending = db ∧ t.artifacts = arts ∧ t.synthCalls = 0 ∧
        t.done = 0 ∧ t.failed = 0 ∧ t.skipped = t.processed)
      hstep (totalTargetOf args db + 1) (initState db arts)
      ⟨rfl, rfl, rfl, rfl, rfl, rfl, rfl⟩
    exact ⟨hinv.1, hinv.1, hinv.2.2.1, hinv.2.2.2.1, hinv.2.2.2.2.1,
      hinv.2.2.2.2.2.1, hinv.2.2.2.2.2.2⟩

theorem c5_dry_run_witness :
    (runMain orcFail argsDry [rowA, rowB] [] true).state.durable = [rowA, rowB] ∧
    (runMain orcFail argsDry [rowA, rowB] [] true).state.pending = [rowA, rowB] ∧
    (runMain orcFail argsDry [rowA, rowB] [] true).state.artifacts = [] ∧
    (runMain orcFail argsDry [rowA, rowB] [] true).state.synthCalls = 0 ∧
    (runMain orcFail argsDry [rowA, rowB] [] true).state.done = 0 ∧
    (runMain orcFail argsDry [rowA, rowB] [] true).state.failed = 0 ∧
    (runMain orcFail argsDry [rowA, rowB] [] true).state.skipped =
      (runMain orcFail argsDry [rowA, rowB] [] true).state.processed :=
  c5_dry_run orcFail argsDry [rowA, rowB] [] true rfl

/-- C7 (amended): when `total_target = 0` the driver returns before the
loop with no database row modified, no artifact created, all counters
zero and no summary printed; the output directory, however, has already
been created by the unconditional `out_dir.mkdir` that precedes the
eligibility count, so the filesystem is not entirely untouched. -/
theorem c7_zero_target_no_db_effects (oracle : Nat → SpeechResult) (args : Args)
    (db : List Row) (arts : List (Nat × Nat)) (od : Bool)
    (h : totalTargetOf args db = 0) :
    (runMain oracle args db arts od).state = initState db arts ∧
    (runMain oracle args db arts od).summary = none := by
  simp only [runMain]
  rw [if_pos h]
  exact ⟨rfl, rfl⟩

theorem c7_zero_target_no_db_effects_witness :
    (runMain orcFail argsDefault [rowDone] [] false).state = initState [rowDone] [] ∧
    (runMain orcFail argsDefault [rowDone] [] false).summary = none :=
  c7_zero_target_no_db_effects orcFail argsDefault [rowDone] [] false (by decide)

/-- C7 (counterexample): a run over a table with no eligible row,
started with no output directory (`outDirExists0 = false`).  The target
is 0, yet the final state has the output directory present: the
`out_dir.mkdir(parents=True, exist_ok=True)` at the top of `main` runs
before the eligibility count, so filesystem state does change, refuting
"no filesystem state is changed". -/
theorem c7_mkdir_side_effect :
    totalTargetOf argsDefault [rowDone] = 0 ∧
    (runMain orcFail argsDefault [rowDone] [] false).state.outDirExists = true := by
  decide

/-- C9 (amended): every run whose target is positive ends by reporting
exactly four quantities — the run target and the `done`, `skipped` and
`failed` counters.  The `processed` counter is not among the printed
lines (it is recoverable as `done + skipped + failed`). -/
theorem c9_summary_lines (oracle : Nat → SpeechResult) (args : Args) (db : List Row)
    (arts : List (Nat × Nat)) (od : Bool) (h : totalTargetOf args db ≠ 0) :
    (runMain oracle args db arts od).summary = some
      [("Target this run", totalTargetOf args db),
       ("Done (OK)", (runMain oracle args db arts od).state.done),
       ("Skipped", (runMain oracle args db arts od).state.skipped),
       ("Failed", (runMain oracle args db arts od).state.failed)] := by
  simp only [runMain]
  rw [if_neg h]

theorem c9_summary_lines_witness :
    (runMain orcFail argsDry [rowA, rowB] [] true).summary = some
      [("Target this run", totalTargetOf argsDry [rowA, rowB]),
       ("Done (OK)", (runMain orcFail argsDry [rowA, rowB] [] true).state.done),
       ("Skipped", (runMain orcFail argsDry [rowA, rowB] [] true).state.skipped),
       ("Failed", (runMain orcFail argsDry [rowA, rowB] [] true).state.failed)] :=
  c9_summary_lines orcFail argsDry [rowA, rowB] [] true (by decide)

/-- C9 (counterexample): a dry run over two eligible records processes
two records (`processed = 2`), and the summary printed at the end
consists of exactly the four lines target / done / skipped / failed —
no line reports the `processed` counter, refuting "reports all four run
counters — processed, done, skipped, and failed — plus the run
target". -/
theorem c9_processed_not_reported :
    (runMain orcFail argsDry [rowA, rowB] [] true).state.processed = 2 ∧
    (runMain orcFail argsDry [rowA, rowB] [] true).summary =
      some [("Target this run", 2), ("Done (OK)", 0), ("Skipped", 2), ("Failed", 0)] := by
  decide

/-- C3: a fetched record handled while its artifact already exists with
non-zero size, outside dry-run, is reconciled: the driver executes an
UPDATE setting `tts_ok = true` and `tts_error = NULL` for that id on
the transaction view, never invokes the provider, writes no artifact,
and counts the record as skipped (and processed); `done` and `failed`
are untouched. -/
theorem c3_reconciliation_skips_provider (oracle : Nat → SpeechResult) (args : Args)
    (row : Row) (s : RunState)
    (hart : artifactNonEmpty s.artifacts row.id = true)
    (hdry : args.dry_run = false) :
    (handleRow oracle args row s).pending =
      updateRow s.pending row.id (fun r => { r with tts_ok := true, tts_error := none }) ∧
    (handleRow oracle args row s).synthCalls = s.synthCalls ∧
    (handleRow oracle args row s).artifacts = s.artifacts ∧
    (handleRow oracle args row s).skipped = s.skipped + 1 ∧
    (handleRow oracle args row s).processed = s.processed + 1 ∧
    (handleRow oracle args row s).done = s.done ∧
    (handleRow oracle args row s).failed = s.failed := by
  rw [handleRow_reconcile oracle args row s hart hdry]
  exact ⟨rfl, rfl, rfl, rfl, rfl, rfl, rfl⟩

theorem c3_reconciliation_skips_provider_witness :
    (handleRow orcFail argsDefault rowA (initState [rowA] [(1, 100)])).pending =
      updateRow [rowA] 1 (fun r => { r with tts_ok := true, tts_error := none }) ∧
    (handleRow orcFail argsDefault rowA (initState [rowA] [(1, 100)])).synthCalls = 0 ∧
    (handleRow orcFail argsDefault rowA (initState [rowA] [(1, 100)])).skipped = 1 := by
  have h := c3_reconciliation_skips_provider orcFail argsDefault rowA
    (initState [rowA] [(1, 100)]) (by decide) rfl
  exact ⟨h.1, h.2.1, h.2.2.2.1⟩

/-- C4: when a synthesis attempt fails, the committed row for that id
has `tts_ok = false`, an attempt counter exactly one above the fetched
value, and a non-empty error message embedding the rendered provider
failure reason — with the cancellation sub-reason also embedded when the
failure is a cancellation; `failed` and `processed` each advance by one
and the page loop continues with the remaining rows instead of
aborting. -/
theorem c4_failure_bookkeeping (oracle : Nat → SpeechResult) (args : Args) (row : Row)
    (s : RunState) (rest : List Row) (tt : Nat)
    (hart : artifactNonEmpty s.artifacts row.id = false)
    (hdry : args.dry_run = false)
    (hfail : (oracle s.synthCalls).reason ≠ ResultReason.synthesizingAudioCompleted)
    (hrun : s.processed < tt) :
    (handleRow oracle args row s).durable =
      updateRow s.pending row.id
        (fun r => { r with tts_ok := false, tts_attempts := row.tts_attempts + 1,
                           tts_error := some (failMessage (oracle s.synthCalls)) }) ∧
    failMessage (oracle s.synthCalls) ≠ "" ∧
    (reasonStr (oracle s.synthCalls).reason).data <:+:
      (failMessage (oracle s.synthCalls)).data ∧
    ((oracle s.synthCalls).reason = ResultReason.canceled →
      (oracle s.synthCalls).cancellationDetails.reason.data <:+:
        (failMessage (oracle s.synthCalls)).data) ∧
    (handleRow oracle args row s).failed = s.failed + 1 ∧
    (handleRow oracle args row s).processed = s.processed + 1 ∧
    processRows oracle args tt (row :: rest) s =
      processRows oracle args tt rest (handleRow oracle args row s) := by
  rw [handleRow_synth_fail oracle args row s hart hdry hfail]
  refine ⟨rfl, failMessage_ne_empty _, reasonStr_infix_failMessage _,
    fun hc => cancelReason_infix_failMessage _ hc, rfl, rfl, ?_⟩
  rw [processRows, if_neg (by omega),
    handleRow_synth_fail oracle args row s hart hdry hfail]

theorem c4_failure_bookkeeping_witness :
    (handleRow orcFail argsDefault rowA (initState [rowA] [])).durable =
      updateRow [rowA] 1
        (fun r => { r with tts_ok := false, tts_attempts := 1,
                           tts_error := some (failMessage (orcFail 0)) }) ∧
    failMessage (orcFail 0) ≠ "" ∧
    (reasonStr (orcFail 0).reason).data <:+: (failMessage (orcFail 0)).data ∧
    (handleRow orcFail argsDefault rowA (initState [rowA] [])).failed = 1 := by
  have h := c4_failure_bookkeeping orcFail argsDefault rowA (initState [rowA] [])
    [] 1 (by decide) rfl (by decide) (by decide)
  exact ⟨h.1, h.2.1, h.2.2.1, h.2.2.2.2.1⟩

/-! ### Success-advancement persists for the rest of the run -/

/-- The per-record handling either leaves the transaction view alone
(dry-run) or applies an id-preserving UPDATE keyed on the handled
row's id. -/
theorem handleRow_pending_cases (oracle : Nat → SpeechResult) (args : Args) (q : Row)
    (s : RunState) :
    (handleRow oracle args q s).pending = s.pending ∨
    ∃ f, (∀ r : Row, (f r).id = r.id) ∧
      (handleRow oracle args q s).pending = updateRow s.pending q.id f := by
  by_cases hdry : args.dry_run = true
  · rw [handleRow_dry oracle args q s hdry]
    exact Or.inl rfl
  · have hdry' : args.dry_run = false := by simpa using hdry
    by_cases hart : artifactNonEmpty s.artifacts q.id = true
    · rw [handleRow_reconcile oracle args q s hart hdry']
      exact Or.inr ⟨fun r => { r with tts_ok := true, tts_error := none },
        fun r => rfl, rfl⟩
    · have hart' : artifactNonEmpty s.artifacts q.id = false := by simpa using hart
      by_cases hc : (oracle s.synthCalls).reason = ResultReason.synthesizingAudioCompleted
      · rw [handleRow_synth_ok oracle args q s hart' hdry' hc]
        exact Or.inr
          ⟨fun r => { r with tts_ok := true, tts_attempts := q.tts_attempts + 1, tts_error := none },
            fun r => rfl, rfl⟩
      · rw [handleRow_synth_fail oracle args q s hart' hdry' hc]
        exact Or.inr
          ⟨fun r => { r with tts_ok := false, tts_attempts := q.tts_attempts + 1, tts_error := some (failMessage (oracle s.synthCalls)) },
            fun r => rfl, rfl⟩

/-- Reconciliation and successful synthesis both leave every row of the
handled id marked `tts_ok = true` in the transaction view. -/
theorem okAt_handleRow_advanced (oracle : Nat → SpeechResult) (args : Args) (row : Row)
    (s : RunState) (hdry : args.dry_run = false)
    (hadv : artifactNonEmpty s.artifacts row.id = true ∨
      (oracle s.synthCalls).reason = ResultReason.synthesizingAudioCompleted) :
    okAt (handleRow oracle args row s) row.id := by
  intro r hr hri
  by_cases hart : artifactNonEmpty s.artifacts row.id = true
  · rw [handleRow_reconcile oracle args row s hart hdry] at hr
    rcases mem_updateRow hr with ⟨r0, _, _, hreq⟩ | ⟨_, hne⟩
    · rw [hreq]
    · exact absurd hri hne
  · have hsucc : (oracle s.synthCalls).reason = ResultReason.synthesizingAudioCompleted := by
      rcases hadv with hx | hx
      · exact absurd hx hart
      · exact hx
    rw [handleRow_synth_ok oracle args row s (by simpa using hart) hdry hsucc] at hr
    rcases mem_updateRow hr with ⟨r0, _, _, hreq⟩ | ⟨_, hne⟩
    · rw [hreq]
    · exact absurd hri hne

/-- Handling a record with a different id never unmarks a
success-advanced record: its UPDATE (if any) is keyed on the other
id. -/
theorem okAt_handleRow_other (oracle : Nat → SpeechResult) (args : Args) (q : Row)
    (s : RunState) (i : Nat) (hne : q.id ≠ i) (h : okAt s i) :
    okAt (handleRow oracle args q s) i := by
  intro r hr hri
  rcases handleRow_pending_cases oracle args q s with hp | ⟨f, hfid, hp⟩
  · rw [hp] at hr
    exact h r hr hri
  · rw [hp] at hr
    rcases mem_updateRow hr with ⟨r0, _, hr0id, hreq⟩ | ⟨hrmem, _⟩
    · have : q.id = i := by
        rw [← hr0id, ← hfid r0, ← hreq]
        exact hri
      exact absurd this hne
    · exact h r hrmem hri

/-- The paged query never returns an id all of whose transaction-view
rows are marked successful: the `WHERE tts_ok = false` clause excludes
them. -/
theorem okAt_not_in_fetchPage {s : RunState} {i ma bs : Nat} (h : okAt s i) :
    i ∉ (fetchPage ma bs s.pending).map Row.id := by
  intro hmem
  obtain ⟨r, hrpage, hrid⟩ := List.mem_map.mp hmem
  have helig := (mem_fetchPage hrpage).2
  rw [eligible, Bool.and_eq_true, Bool.not_eq_true'] at helig
  rw [h r (mem_fetchPage hrpage).1 hrid] at helig
  exact absurd helig.1 (by decide)

/-- Handling the rest of a page whose remaining ids differ from `i`
keeps record `i` advanced. -/
theorem okAt_processRows (oracle : Nat → SpeechResult) (args : Args) (tt i : Nat) :
    ∀ rows s, (∀ r ∈ rows, r.id ≠ i) → okAt s i →
      okAt (processRows oracle args tt rows s) i
  | [], _, _, h => h
  | q :: rest, s, hids, h => by
    rw [processRows]
    split
    · exact h
    · exact okAt_processRows oracle args tt i rest _
        (fun r hr => hids r (List.mem_cons_of_mem _ hr))
        (okAt_handleRow_other oracle args q s i (hids q (List.mem_cons_self _ _)) h)

/-- Once a record is advanced, every further iteration of the page loop
keeps it advanced: each later page is fetched from a view in which the
record is marked successful, so the page excludes it and its handling
cannot touch the record. -/
theorem okAt_runPages (oracle : Nat → SpeechResult) (args : Args) (tt i : Nat) :
    ∀ fuel s, okAt s i → okAt (runPages oracle args tt fuel s) i
  | 0, _, h => h
  | fuel + 1, s, h => by
    rw [runPages]
    split
    · split
      · exact h
      · refine okAt_runPages oracle args tt i fuel _ ?_
        refine okAt_processRows oracle args tt i _ s ?_ h
        intro r hr hri
        exact okAt_not_in_fetchPage h (List.mem_map.mpr ⟨r, hr, hri⟩)
    · exact h

/-- Insertion keeps the same multiset of rows. -/
theorem insertById_perm (x : Row) : ∀ (l : List Row), (insertById x l).Perm (x :: l)
  | [] => List.Perm.refl _
  | y :: ys => by
    rw [insertById]
    split
    · exact List.Perm.refl _
    · exact ((insertById_perm x ys).cons y).trans (List.Perm.swap x y ys)

/-- `ORDER BY id` permutes the rows it sorts. -/
theorem sortById_perm : ∀ (l : List Row), (sortById l).Perm l
  | [] => List.Perm.refl _
  | x :: xs => (insertById_perm x (sortById xs)).trans ((sortById_perm xs).cons x)

/-- A page fetched from a table with distinct ids has distinct ids. -/
theorem fetchPage_nodup_ids (ma bs : Nat) (db : List Row)
    (h : (db.map Row.id).Nodup) : ((fetchPage ma bs db).map Row.id).Nodup := by
  have h1 : ((db.filter (eligible ma)).map Row.id).Nodup :=
    h.sublist ((List.filter_sublist db).map Row.id)
  have h2 : ((sortById (db.filter (eligible ma))).map Row.id).Nodup :=
    (((sortById_perm _).map Row.id).nodup_iff).mpr h1
  exact h2.sublist ((List.take_sublist bs _).map Row.id)

/-- Ids within one fetched page are distinct when the table's ids are
(`id` is the primary key), so the rows after any row of its page carry
different ids — discharging the `hrest` hypothesis of the C1 theorem
for every actual page suffix. -/
theorem page_suffix_ids_ne (ma bs : Nat) (db : List Row) (row : Row)
    (pre rest : List Row) (h : (db.map Row.id).Nodup)
    (hpage : fetchPage ma bs db = pre ++ row :: rest) :
    ∀ r ∈ rest, r.id ≠ row.id := by
  have hnd := fetchPage_nodup_ids ma bs db h
  rw [hpage] at hnd
  have hsub : ((row :: rest).map Row.id).Nodup :=
    hnd.sublist ((List.sublist_append_right pre (row :: rest)).map Row.id)
  rw [List.map_cons, List.nodup_cons] at hsub
  intro r hr hri
  exact hsub.1 (List.mem_map.mpr ⟨r, hr, hri⟩)

/-- C1 (amended): a record the run advanced to success — reconciled
against an existing non-empty artifact, or synthesized successfully,
both of which set `tts_ok = true` on the transaction view — is never
returned by any later paged eligible-record query of that run: not by
the query right after its page (`fuel = 0`) nor by any query `fuel`
loop iterations later, with the remaining rows `rest` of the advancing
page handled in between (`hrest`: ids within one fetched page are
distinct, `id` being the primary key — see `page_suffix_ids_ne`).  The
original claim fails for *failed* records: one whose synthesis failed
stays eligible while `tts_attempts < max_attempts` and is fetched and
synthesized again within the same invocation (see the
counterexample). -/
theorem c1_success_never_refetched (oracle : Nat → SpeechResult) (args : Args) (row : Row)
    (s : RunState) (rest : List Row) (tt fuel : Nat)
    (hdry : args.dry_run = false)
    (hadv : artifactNonEmpty s.artifacts row.id = true ∨
      (oracle s.synthCalls).reason = ResultReason.synthesizingAudioCompleted)
    (hrest : ∀ r ∈ rest, r.id ≠ row.id) :
    row.id ∉ (fetchPage args.max_attempts args.batch_size
      (runPages oracle args tt fuel
        (processRows oracle args tt rest (handleRow oracle args row s))).pending).map
      Row.id :=
  okAt_not_in_fetchPage
    (okAt_runPages oracle args tt row.id fuel _
      (okAt_processRows oracle args tt row.id rest _ hrest
        (okAt_handleRow_advanced oracle args row s hdry hadv)))

theorem c1_success_never_refetched_witness :
    (1 : Nat) ∉ (fetchPage 5 100
      (runPages orcFail argsDefault 2 1
        (processRows orcFail argsDefault 2 [rowB]
          (handleRow orcFail argsDefault rowA (initState [rowA, rowB] [(1, 33)])))).pending).map
      Row.id :=
  c1_success_never_refetched orcFail argsDefault rowA (initState [rowA, rowB] [(1, 33)])
    [rowB] 2 1 rfl (Or.inl (by decide)) (by decide)

/-- C1 (counterexample): two eligible records, page size 1, a provider
that always cancels.  The run fetches record 1, synthesizes it and
fails; the failed record is still eligible, so the next page returns
record 1 *again* and it is synthesized a second time in the same
invocation: two provider calls, record 1 ends at two attempts, record 2
is never handled although the target was 2.  This refutes "the paged
eligible-record query never returns a row the run already handled, and
no synthesis retry for the same record happens inside one
invocation". -/
theorem c1_failed_row_refetched :
    (runMain orcFail argsOnePerPage [rowA, rowB] [] true).state.synthCalls = 2 ∧
    (runMain orcFail argsOnePerPage [rowA, rowB] [] true).state.durable.map
        (fun r => (r.id, r.tts_attempts)) = [(1, 2), (2, 0)] ∧
    totalTargetOf argsOnePerPage [rowA, rowB] = 2 := by
  decide

/-- C2 (code bug): reconciliation executes its UPDATE but never commits
it.  Run over a single eligible record whose non-empty artifact already
exists: immediately after the record is handled the committed table is
unchanged (the update lives only in the transaction view), and at the
end of the run — the record having been counted as skipped and
processed — `conn.close()` discards the still-uncommitted update, so the
durable row keeps `tts_ok = false`.  The per-record `conn.commit()` of
the synthesis path (line 277) is missing from the reconciliation branch
(lines 229–238). -/
theorem c2_reconciliation_never_committed :
    (handleRow orcFail argsDefault rowA (initState [rowA] [(1, 100)])).durable = [rowA] ∧
    (handleRow orcFail argsDefault rowA (initState [rowA] [(1, 100)])).pending ≠ [rowA] ∧
    (runMain orcFail argsDefault [rowA] [(1, 100)] true).state.skipped = 1 ∧
    (runMain orcFail argsDefault [rowA] [(1, 100)] true).state.processed = 1 ∧
    (runMain orcFail argsDefault [rowA] [(1, 100)] true).state.durable = [rowA] ∧
    rowA.tts_ok = false := by
  decide

end HablaiTTS
